import Mathlib

/-!
Shallow embedding of `src/utils.py` (class `BatchInference`): the construction
of the `input.jsonl` request file from the images listed in an object store,
and the submission of a batch model-invocation job.  External collaborators
(the store client and the inference client) are modelled as records of
functions returning `Except String _`, a raised exception being the `error`
case; each operation of the orchestrator additionally returns the trace of the
externally visible calls it made, in order.
-/

namespace AwsHelpers

/-- Raw bytes of a stored object, one `Nat` per byte (values are below 256 for
well-formed objects). -/
abbrev Bytes := List Nat

/-- JSON values, as assembled by the Python dict literals in `utils.py`. -/
inductive Json where
  | str (s : String)
  | num (n : Nat)
  | arr (elems : List Json)
  | obj (fields : List (String × Json))

/-- Dictionary access `d[key]` on a JSON object: the first binding of `key`,
if any. -/
def Json.lookup : Json → String → Option Json
  | .obj fields, key => List.lookup key fields
  | _, _ => none

/-- Embedding of Python `os.path.basename` on store keys: the part of the key
after the last slash, computed by a left fold that restarts at every slash. -/
def basename (s : String) : String :=
  String.mk (s.toList.foldl (fun acc c => if c = '/' then [] else acc ++ [c]) [])

/-- The base64 alphabet as a function from a 6-bit value to its character
(RFC 4648, the table used by Python `base64.b64encode`). -/
def b64char (n : Nat) : Char :=
  if n < 26 then Char.ofNat (65 + n)
  else if n < 52 then Char.ofNat (97 + (n - 26))
  else if n < 62 then Char.ofNat (48 + (n - 52))
  else if n = 62 then '+'
  else '/'

/-- Inverse of the base64 alphabet: the 6-bit value of a character, when the
character is in the table. -/
def b64val (c : Char) : Option Nat :=
  if 65 ≤ c.toNat ∧ c.toNat ≤ 90 then some (c.toNat - 65)
  else if 97 ≤ c.toNat ∧ c.toNat ≤ 122 then some (26 + (c.toNat - 97))
  else if 48 ≤ c.toNat ∧ c.toNat ≤ 57 then some (52 + (c.toNat - 48))
  else if c = '+' then some 62
  else if c = '/' then some 63
  else none

/-- Embedding of Python `base64.b64encode(...)` followed by `.decode("utf-8")`:
standard base64 with padding, consuming the byte list in groups of three. -/
def b64encode : Bytes → List Char
  | [] => []
  | [a] => [b64char (a / 4), b64char (a % 4 * 16), '=', '=']
  | [a, b] => [b64char (a / 4), b64char (a % 4 * 16 + b / 16), b64char (b % 16 * 4), '=']
  | a :: b :: c :: rest =>
      b64char (a / 4) :: b64char (a % 4 * 16 + b / 16) :: b64char (b % 16 * 4 + c / 64)
        :: b64char (c % 64) :: b64encode rest

/-- Decoding of a final base64 quantum of four characters, covering the two
padded forms and the full form. -/
def b64decodeLast (w x y z : Char) : Option Bytes :=
  if y = '=' ∧ z = '=' then do
    let a ← b64val w
    let b ← b64val x
    some [a * 4 + b / 16]
  else if z = '=' then do
    let a ← b64val w
    let b ← b64val x
    let c ← b64val y
    some [a * 4 + b / 16, b % 16 * 16 + c / 4]
  else do
    let a ← b64val w
    let b ← b64val x
    let c ← b64val y
    let d ← b64val z
    some [a * 4 + b / 16, b % 16 * 16 + c / 4, c % 4 * 64 + d]

/-- Standard base64 decoding of a character list, the inverse direction of
`b64encode`, used to state the round-trip property of the `data` field. -/
def b64decode : List Char → Option Bytes
  | [] => some []
  | w :: x :: y :: z :: rest =>
      if rest = [] then b64decodeLast w x y z
      else do
        let a ← b64val w
        let b ← b64val x
        let c ← b64val y
        let d ← b64val z
        let tail ← b64decode rest
        some ((a * 4 + b / 16) :: (b % 16 * 16 + c / 4) :: (c % 4 * 64 + d) :: tail)
  | _ => none

/-- Behaviour of the object-store client (the `s3_client` handle): each
operation either returns a value or raises an exception, modelled by
`Except String _`.  `list_objects` takes the bucket and the folder filter;
`get_object` takes the bucket and the object key and yields the object's
bytes (`image["Body"].read()`); `put_object` takes the bucket, the key and
the uploaded file's content, here represented by the list of JSON records
the local file holds, one per line. -/
structure S3Client where
  list_objects : String → String → Except String (List String)
  get_object : String → String → Except String Bytes
  put_object : String → String → List Json → Except String Unit

/-- Modelled from the spec: `helpers.list_obj_s3` is imported by `utils.py`
from a file `helpers.py` that is not among the shown sources.  Per the spec's
external-interface section the store client must support
list-objects-by-prefix returning a collection of keys, and the orchestrator
checks existence "by listing with that key as the filter"; so the helper is
the plain listing call of the store client. -/
def list_obj_s3 (s3_client : S3Client) (bucket_name folder_name : String) :
    Except String (List String) :=
  s3_client.list_objects bucket_name folder_name

/-- Behaviour of the inference-service client (the `bedrock_client` handle).
The arguments mirror the keyword arguments of `create_model_invocation_job`:
job name, model id, input data config, output data config, role ARN; the
result is the service response, a JSON object, or a raised exception. -/
structure BedrockClient where
  create_model_invocation_job :
    String → String → Json → Json → String → Except String Json

/-- Configuration of a `BatchInference` object exactly as set by `__init__` in
`utils.py`: the two client handles and the seven string parameters. -/
structure BatchInference where
  bedrock_client : BedrockClient
  s3_client : S3Client
  bucket_name : String
  folder_name : String
  output_folder : String
  model_id : String
  creation_prompt : String
  role_arn : String
  job_name : String

/-- One externally visible effect of a run, recorded in order in a trace:
store listings, object reads, the local file write, object uploads and
job-creation calls, each with the arguments passed. -/
inductive Call where
  | listObjects (bucket folder : String)
  | getObject (bucket key : String)
  | writeLocalFile (path : String) (lines : List Json)
  | putObject (bucket key : String) (body : List Json)
  | createJob (jobName modelId : String) (inputCfg outputCfg : Json) (roleArn : String)

/-- One inference request record: exactly the dict `json_obj` built by the
loop body of `create_input_jsonl` for one image. -/
def mkRecord (creation_prompt image_filename : String) (image_binary : Bytes) : Json :=
  .obj [("recordId", .str (basename image_filename)),
        ("modelInput", .obj
          [("anthropic_version", .str "bedrock-2023-05-31"),
           ("max_tokens", .num 1024),
           ("system", .str creation_prompt),
           ("messages", .arr
             [.obj [("role", .str "user"),
                    ("content", .arr
                      [.obj [("type", .str "image"),
                             ("source", .obj
                               [("type", .str "base64"),
                                ("media_type", .str "image/jpeg"),
                                ("data", .str (String.mk (b64encode image_binary)))])]])]])])]

/-- The for-loop of `create_input_jsonl`: fetch each listed image in order and
append its record to `input_json_file`; a `get_object` that raises aborts the
loop and propagates.  Returns the trace of store calls made, together with
the accumulated records or the raised error. -/
def build_records (bi : BatchInference) : List String → List Call × Except String (List Json)
  | [] => ([], .ok [])
  | image_filename :: rest =>
      match bi.s3_client.get_object bi.bucket_name image_filename with
      | .error e => ([.getObject bi.bucket_name image_filename], .error e)
      | .ok image_binary =>
          let next := build_records bi rest
          (.getObject bi.bucket_name image_filename :: next.1,
           next.2.map (fun objs => mkRecord bi.creation_prompt image_filename image_binary :: objs))

/-- Embedding of `BatchInference.create_input_jsonl`: list the source folder,
build one record per listed image, write the records to the local file
`input.jsonl` one JSON line each, then upload that file to the bucket under
the key `input.jsonl`; an exception raised by the upload is caught and
swallowed (only printed).  Returns the trace of effects together with `self`
(unchanged, since the method assigns no attribute) or the propagated error. -/
def create_input_jsonl (bi : BatchInference) : List Call × Except String BatchInference :=
  match list_obj_s3 bi.s3_client bi.bucket_name bi.folder_name with
  | .error e => ([.listObjects bi.bucket_name bi.folder_name], .error e)
  | .ok list_of_images =>
      match build_records bi list_of_images with
      | (tr, .error e) => (.listObjects bi.bucket_name bi.folder_name :: tr, .error e)
      | (tr, .ok input_json_file) =>
          let trace := Call.listObjects bi.bucket_name bi.folder_name :: tr
            ++ [.writeLocalFile "input.jsonl" input_json_file,
                .putObject bi.bucket_name "input.jsonl" input_json_file]
          match bi.s3_client.put_object bi.bucket_name "input.jsonl" input_json_file with
          | .ok _ => (trace, .ok bi)
          | .error _e => (trace, .ok bi)

/-- The `inputDataConfig` dict of `start_batch_inference_job`. -/
def inputDataConfig (bucket_name : String) : Json :=
  .obj [("s3InputDataConfig", .obj
    [("s3InputFormat", .str "JSONL"),
     ("s3Uri", .str ("s3://" ++ bucket_name ++ "/input.jsonl"))])]

/-- The `outputDataConfig` dict of `start_batch_inference_job`. -/
def outputDataConfig (bucket_name output_folder : String) : Json :=
  .obj [("s3OutputDataConfig", .obj
    [("s3Uri", .str ("s3://" ++ bucket_name ++ "/" ++ output_folder))])]

/-- The job-creation call as it appears in a trace, with the arguments
`start_batch_inference_job` passes to `create_model_invocation_job`. -/
def jobCall (bi : BatchInference) : Call :=
  .createJob bi.job_name bi.model_id (inputDataConfig bi.bucket_name)
    (outputDataConfig bi.bucket_name bi.output_folder) bi.role_arn

/-- Embedding of `BatchInference.start_batch_inference_job`: check whether
`input.jsonl` exists by listing with that key as the folder filter, run
`create_input_jsonl` when (and only when) the listing came back empty, then
call `create_model_invocation_job` and return the `jobArn` field of the
response together with `self`.  A missing `jobArn` key raises, as Python dict
access does; errors of the check, of `create_input_jsonl` and of the
job-creation call propagate. -/
def start_batch_inference_job (bi : BatchInference) :
    List Call × Except String (BatchInference × Json) :=
  match list_obj_s3 bi.s3_client bi.bucket_name "input.jsonl" with
  | .error e => ([.listObjects bi.bucket_name "input.jsonl"], .error e)
  | .ok input_jsonl_yes_no =>
      let step := if input_jsonl_yes_no.isEmpty then create_input_jsonl bi else ([], .ok bi)
      match step with
      | (tr1, .error e) => (.listObjects bi.bucket_name "input.jsonl" :: tr1, .error e)
      | (tr1, .ok bi1) =>
          let trace := Call.listObjects bi.bucket_name "input.jsonl" :: tr1 ++ [jobCall bi1]
          match bi1.bedrock_client.create_model_invocation_job bi1.job_name bi1.model_id
              (inputDataConfig bi1.bucket_name)
              (outputDataConfig bi1.bucket_name bi1.output_folder) bi1.role_arn with
          | .error e => (trace, .error e)
          | .ok response =>
              match response.lookup "jobArn" with
              | some jobArn => (trace, .ok (bi1, jobArn))
              | none => (trace, .error "KeyError: jobArn")

/-- The content of the local `input.jsonl` written during a run: the lines of
the first local-file write in the trace, if any. -/
def writtenFile (trace : List Call) : Option (List Json) :=
  trace.findSome? fun c =>
    match c with
    | .writeLocalFile _ lines => some lines
    | _ => none

/-- The number of job-creation calls in a trace. -/
def jobCallCount (trace : List Call) : Nat :=
  trace.countP fun c =>
    match c with
    | .createJob _ _ _ _ _ => true
    | _ => false

/-- The `recordId` field of a record, when present and a string. -/
def recordId (j : Json) : Option String :=
  match j.lookup "recordId" with
  | some (.str s) => some s
  | _ => none

/-- The base64 `data` string of a record, read along the wire-format path
`modelInput.messages[0].content[0].source.data`. -/
def recordData (j : Json) : Option String := do
  let mi ← j.lookup "modelInput"
  let msgs ← mi.lookup "messages"
  match msgs with
  | .arr [msg] =>
      let content ← msg.lookup "content"
      match content with
      | .arr [entry] =>
          let src ← entry.lookup "source"
          match src.lookup "data" with
          | some (.str s) => some s
          | _ => none
      | _ => none
  | _ => none

/-- The wire shape of one request-file line, written down from the spec's
description of the request-file format (refinement side of claim C2). -/
def wireShape (prompt : String) (j : Json) : Prop :=
  ∃ rid data, j = Json.obj
    [("recordId", .str rid),
     ("modelInput", .obj
       [("anthropic_version", .str "bedrock-2023-05-31"),
        ("max_tokens", .num 1024),
        ("system", .str prompt),
        ("messages", .arr
          [.obj [("role", .str "user"),
                 ("content", .arr
                   [.obj [("type", .str "image"),
                          ("source", .obj
                            [("type", .str "base64"),
                             ("media_type", .str "image/jpeg"),
                             ("data", .str data)])]])]])])]

/-- Bytes of the two images of the concrete witness store, by key. -/
def testFetch (key : String) : Bytes :=
  if key = "images/a.jpg" then [0, 1, 2] else [255, 100]

/-- A concrete store for witnesses: two images under `images/`, no
`input.jsonl` present, uploads succeed. -/
def testS3 : S3Client :=
  ⟨fun _ folder => if folder = "input.jsonl" then .ok [] else .ok ["images/a.jpg", "images/b.jpg"],
   fun _ key => .ok (testFetch key),
   fun _ _ _ => .ok ()⟩

/-- A concrete store for witnesses where `input.jsonl` is already present. -/
def testS3Present : S3Client :=
  ⟨fun _ folder => if folder = "input.jsonl" then .ok ["input.jsonl"] else .ok ["images/a.jpg"],
   fun _ key => .ok (testFetch key),
   fun _ _ _ => .ok ()⟩

/-- A concrete store whose uploads raise, e.g. for lack of permission. -/
def testS3PutFail : S3Client :=
  ⟨fun _ folder => if folder = "input.jsonl" then .ok [] else .ok ["images/a.jpg", "images/b.jpg"],
   fun _ key => .ok (testFetch key),
   fun _ _ _ => .error "AccessDenied"⟩

/-- A concrete store whose listing raises. -/
def testS3ListFail : S3Client :=
  ⟨fun _ _ => .error "NoSuchBucket",
   fun _ key => .ok (testFetch key),
   fun _ _ _ => .ok ()⟩

/-- A concrete store whose object reads raise. -/
def testS3GetFail : S3Client :=
  ⟨fun _ folder => if folder = "input.jsonl" then .ok [] else .ok ["images/a.jpg"],
   fun _ _ => .error "NoSuchKey",
   fun _ _ _ => .ok ()⟩

/-- A concrete store whose listings always come back empty. -/
def testS3Empty : S3Client :=
  ⟨fun _ _ => .ok [],
   fun _ key => .ok (testFetch key),
   fun _ _ _ => .ok ()⟩

/-- A concrete inference client for witnesses, answering with a response that
carries a `jobArn`. -/
def testBedrock : BedrockClient :=
  ⟨fun _ _ _ _ _ => .ok (.obj [("jobArn", .str "arn:aws:bedrock:job/test")])⟩

/-- A concrete inference client whose job creation raises. -/
def testBedrockFail : BedrockClient :=
  ⟨fun _ _ _ _ _ => .error "ValidationException"⟩

/-- A concrete configuration for witnesses, over `testS3` and `testBedrock`. -/
def testBI : BatchInference :=
  ⟨testBedrock, testS3, "bucket", "images/", "output/", "model-id", "prompt", "role-arn", "job-1"⟩

/-- The witness configuration with `input.jsonl` already in the store. -/
def testBIPresent : BatchInference :=
  ⟨testBedrock, testS3Present, "bucket", "images/", "output/", "model-id", "prompt", "role-arn", "job-1"⟩

/-- The witness configuration whose uploads raise. -/
def testBIPutFail : BatchInference :=
  ⟨testBedrock, testS3PutFail, "bucket", "images/", "output/", "model-id", "prompt", "role-arn", "job-1"⟩

/-- The witness configuration whose listings raise. -/
def testBIListFail : BatchInference :=
  ⟨testBedrock, testS3ListFail, "bucket", "images/", "output/", "model-id", "prompt", "role-arn", "job-1"⟩

/-- The witness configuration whose object reads raise. -/
def testBIGetFail : BatchInference :=
  ⟨testBedrock, testS3GetFail, "bucket", "images/", "output/", "model-id", "prompt", "role-arn", "job-1"⟩

/-- The witness configuration whose job creation raises, over the store that
already holds `input.jsonl`. -/
def testBIJobFail : BatchInference :=
  ⟨testBedrockFail, testS3Present, "bucket", "images/", "output/", "model-id", "prompt", "role-arn", "job-1"⟩

/-- The witness configuration over the store whose listings are empty. -/
def testBIEmpty : BatchInference :=
  ⟨testBedrock, testS3Empty, "bucket", "images/", "output/", "model-id", "prompt", "role-arn", "job-1"⟩

/-- The alphabet inverse undoes the alphabet on every 6-bit value. -/
theorem b64val_b64char : ∀ n < 64, b64val (b64char n) = some n := by decide

/-- No alphabet character is the padding character. -/
theorem b64char_ne_pad : ∀ n < 64, b64char n ≠ '=' := by decide

/-- Encoding a non-empty byte list yields a non-empty character list. -/
theorem b64encode_ne_nil : ∀ (bs : Bytes), bs ≠ [] → b64encode bs ≠ []
  | [], h => absurd rfl h
  | [_], _ => by simp [b64encode]
  | [_, _], _ => by simp [b64encode]
  | _ :: _ :: _ :: _, _ => by simp [b64encode]

/-- Round trip of the base64 pair: decoding an encoded byte list restores it,
for genuine bytes (each value below 256). -/
theorem b64decode_b64encode : ∀ (bs : Bytes), (∀ x ∈ bs, x < 256) →
    b64decode (b64encode bs) = some bs := by
  intro bs
  induction bs using b64encode.induct with
  | case1 => intro _; rfl
  | case2 a =>
      intro h
      have ha : a < 256 := h a (by simp)
      have h1 := b64val_b64char (a / 4) (by omega)
      have h2 := b64val_b64char (a % 4 * 16) (by omega)
      simp [b64encode, b64decode, b64decodeLast, h1, h2]
      omega
  | case3 a b =>
      intro h
      have ha : a < 256 := h a (by simp)
      have hb : b < 256 := h b (by simp)
      have h1 := b64val_b64char (a / 4) (by omega)
      have h2 := b64val_b64char (a % 4 * 16 + b / 16) (by omega)
      have h3 := b64val_b64char (b % 16 * 4) (by omega)
      have hy := b64char_ne_pad (b % 16 * 4) (by omega)
      simp [b64encode, b64decode, b64decodeLast, h1, h2, h3, hy]
      omega
  | case4 a b c rest ih =>
      intro h
      have ha : a < 256 := h a (by simp)
      have hb : b < 256 := h b (by simp)
      have hc : c < 256 := h c (by simp)
      have h1 := b64val_b64char (a / 4) (by omega)
      have h2 := b64val_b64char (a % 4 * 16 + b / 16) (by omega)
      have h3 := b64val_b64char (b % 16 * 4 + c / 64) (by omega)
      have h4 := b64val_b64char (c % 64) (by omega)
      by_cases hrest : rest = []
      · subst hrest
        have hy := b64char_ne_pad (b % 16 * 4 + c / 64) (by omega)
        have hz := b64char_ne_pad (c % 64) (by omega)
        simp [b64encode, b64decode, b64decodeLast, h1, h2, h3, h4, hy, hz]
        omega
      · have hne := b64encode_ne_nil rest hrest
        have ih' := ih (fun x hx => h x (by simp [hx]))
        simp [b64encode, b64decode, hne, h1, h2, h3, h4, ih']
        omega

/-- When every listed image can be fetched, the loop of `create_input_jsonl`
reads each image in listing order and produces exactly one record per image. -/
theorem build_records_ok (bi : BatchInference) (keys : List String) (fetch : String → Bytes)
    (hfetch : ∀ k ∈ keys, bi.s3_client.get_object bi.bucket_name k = .ok (fetch k)) :
    build_records bi keys =
      (keys.map (Call.getObject bi.bucket_name),
       .ok (keys.map fun k => mkRecord bi.creation_prompt k (fetch k))) := by
  induction keys with
  | nil => rfl
  | cons k rest ih =>
      have hk := hfetch k (List.mem_cons_self k rest)
      have ih' := ih (fun k' hk' => hfetch k' (List.mem_cons_of_mem _ hk'))
      simp [build_records, hk, ih', Except.map]

/-- When the listing and every fetch succeed, `create_input_jsonl` performs
exactly: the listing, one read per image in order, the local write of the
record list, and the upload of that same list; it returns `self` whatever the
upload's outcome. -/
theorem create_input_jsonl_ok (bi : BatchInference) (keys : List String) (fetch : String → Bytes)
    (hlist : bi.s3_client.list_objects bi.bucket_name bi.folder_name = .ok keys)
    (hfetch : ∀ k ∈ keys, bi.s3_client.get_object bi.bucket_name k = .ok (fetch k)) :
    create_input_jsonl bi =
      (Call.listObjects bi.bucket_name bi.folder_name
         :: keys.map (Call.getObject bi.bucket_name)
         ++ [Call.writeLocalFile "input.jsonl"
               (keys.map fun k => mkRecord bi.creation_prompt k (fetch k)),
             Call.putObject bi.bucket_name "input.jsonl"
               (keys.map fun k => mkRecord bi.creation_prompt k (fetch k))],
       .ok bi) := by
  have hbr := build_records_ok bi keys fetch hfetch
  simp only [create_input_jsonl, list_obj_s3, hlist, hbr]
  cases bi.s3_client.put_object bi.bucket_name "input.jsonl"
      (keys.map fun k => mkRecord bi.creation_prompt k (fetch k)) <;> rfl

/-- The file recorded by a trace of the canonical successful shape is the
record list of its local write. -/
theorem writtenFile_trace (b f : String) (keys : List String) (recs : List Json) (put : Call) :
    writtenFile (Call.listObjects b f :: keys.map (Call.getObject b)
      ++ [Call.writeLocalFile "input.jsonl" recs, put]) = some recs := by
  induction keys with
  | nil => rfl
  | cons k rest ih => simpa [writtenFile, List.findSome?] using ih

/-- The loop of `create_input_jsonl` makes no job-creation call. -/
theorem jobCallCount_build_records (bi : BatchInference) (keys : List String) :
    jobCallCount (build_records bi keys).1 = 0 := by
  induction keys with
  | nil => rfl
  | cons k rest ih =>
      cases hk : bi.s3_client.get_object bi.bucket_name k with
      | error e => simp [build_records, hk, jobCallCount]
      | ok bytes => simp only [build_records, hk] ; simpa [jobCallCount] using ih

/-- `create_input_jsonl` makes no job-creation call. -/
theorem jobCallCount_create_input_jsonl (bi : BatchInference) :
    jobCallCount (create_input_jsonl bi).1 = 0 := by
  cases hl : bi.s3_client.list_objects bi.bucket_name bi.folder_name with
  | error e => simp [create_input_jsonl, list_obj_s3, hl, jobCallCount]
  | ok keys =>
      cases hbr : build_records bi keys with
      | mk tr res =>
          have hb := jobCallCount_build_records bi keys
          rw [hbr] at hb
          simp only [jobCallCount] at hb
          cases res with
          | error e =>
              simp only [create_input_jsonl, list_obj_s3, hl, hbr, jobCallCount]
              simp [List.countP_cons, hb]
          | ok recs =>
              cases hput : bi.s3_client.put_object bi.bucket_name "input.jsonl" recs with
              | ok u =>
                  simp only [create_input_jsonl, list_obj_s3, hl, hbr, hput, jobCallCount]
                  simp [List.countP_cons, List.countP_append, hb]
              | error e =>
                  simp only [create_input_jsonl, list_obj_s3, hl, hbr, hput, jobCallCount]
                  simp [List.countP_cons, List.countP_append, hb]

/-- When `create_input_jsonl` returns without raising, the returned `self` is
the one it was given. -/
theorem create_input_jsonl_self (bi bi1 : BatchInference)
    (h : (create_input_jsonl bi).2 = .ok bi1) : bi1 = bi := by
  cases hl : bi.s3_client.list_objects bi.bucket_name bi.folder_name with
  | error e => simp [create_input_jsonl, list_obj_s3, hl] at h
  | ok keys =>
      cases hbr : build_records bi keys with
      | mk tr res =>
          cases res with
          | error e => simp [create_input_jsonl, list_obj_s3, hl, hbr] at h
          | ok recs =>
              cases hput : bi.s3_client.put_object bi.bucket_name "input.jsonl" recs with
              | ok u =>
                  simp [create_input_jsonl, list_obj_s3, hl, hbr, hput] at h
                  exact h.symm
              | error e =>
                  simp [create_input_jsonl, list_obj_s3, hl, hbr, hput] at h
                  exact h.symm

/-- Full behaviour of `start_batch_inference_job` once the existence check has
answered and the regeneration (when triggered) returns normally: the trace is
the check, then the regeneration's calls exactly when the check came back
empty, then the job-creation call; the result is the response's `jobArn` (or
the propagated job-creation error, or a `KeyError` for a response without a
`jobArn`). -/
theorem start_batch_after_check (bi : BatchInference) (l : List String)
    (hcheck : bi.s3_client.list_objects bi.bucket_name "input.jsonl" = .ok l)
    (hpre : l = [] → (create_input_jsonl bi).2 = .ok bi) :
    start_batch_inference_job bi =
      (Call.listObjects bi.bucket_name "input.jsonl"
         :: (if l.isEmpty then (create_input_jsonl bi).1 else []) ++ [jobCall bi],
       match bi.bedrock_client.create_model_invocation_job bi.job_name bi.model_id
           (inputDataConfig bi.bucket_name) (outputDataConfig bi.bucket_name bi.output_folder)
           bi.role_arn with
       | .error e => .error e
       | .ok response =>
           match response.lookup "jobArn" with
           | some arn => .ok (bi, arn)
           | none => .error "KeyError: jobArn") := by
  cases l with
  | nil =>
      have hc := hpre rfl
      cases hcr : create_input_jsonl bi with
      | mk tr res =>
          rw [hcr] at hc
          simp only at hc
          subst hc
          simp only [start_batch_inference_job, list_obj_s3, hcheck, hcr, List.isEmpty_nil,
            if_true]
          cases hjob : bi.bedrock_client.create_model_invocation_job bi.job_name bi.model_id
              (inputDataConfig bi.bucket_name) (outputDataConfig bi.bucket_name bi.output_folder)
              bi.role_arn with
          | error e => simp
          | ok response => cases hlook : response.lookup "jobArn" <;> simp [hlook]
  | cons x xs =>
      simp only [start_batch_inference_job, list_obj_s3, hcheck, List.isEmpty_cons,
        Bool.false_eq_true, if_false]
      cases hjob : bi.bedrock_client.create_model_invocation_job bi.job_name bi.model_id
          (inputDataConfig bi.bucket_name) (outputDataConfig bi.bucket_name bi.output_folder)
          bi.role_arn with
      | error e => simp
      | ok response => cases hlook : response.lookup "jobArn" <;> simp [hlook]


/-- C1: for every non-empty list of image keys returned by the store listing,
`create_input_jsonl` writes a request file with exactly one JSON line per
listed image, in listing (discovery) order, and the `recordId` of the i-th
line equals the base filename of the i-th listed key. -/
theorem claim1_one_line_per_image (bi : BatchInference) (keys : List String)
    (fetch : String → Bytes)
    (hlist : bi.s3_client.list_objects bi.bucket_name bi.folder_name = .ok keys)
    (hne : keys ≠ [])
    (hfetch : ∀ k ∈ keys, bi.s3_client.get_object bi.bucket_name k = .ok (fetch k)) :
    ∃ lines, writtenFile (create_input_jsonl bi).1 = some lines ∧
      lines.length = keys.length ∧
      ∀ i (h : i < keys.length), ∃ r, lines[i]? = some r ∧
        recordId r = some (basename keys[i]) := by
  refine ⟨keys.map fun k => mkRecord bi.creation_prompt k (fetch k), ?_, by simp, ?_⟩
  · rw [create_input_jsonl_ok bi keys fetch hlist hfetch]
    exact writtenFile_trace _ _ _ _ _
  · intro i h
    refine ⟨mkRecord bi.creation_prompt keys[i] (fetch keys[i]), ?_, rfl⟩
    simp [List.getElem?_map, List.getElem?_eq_getElem h]

/-- Witness of C1 at the concrete two-image store. -/
theorem claim1_witness :
    ∃ lines, writtenFile (create_input_jsonl testBI).1 = some lines ∧
      lines.length = (["images/a.jpg", "images/b.jpg"] : List String).length ∧
      ∀ i (h : i < (["images/a.jpg", "images/b.jpg"] : List String).length), ∃ r,
        lines[i]? = some r ∧
        recordId r = some (basename (["images/a.jpg", "images/b.jpg"] : List String)[i]) :=
  claim1_one_line_per_image testBI ["images/a.jpg", "images/b.jpg"] testFetch rfl
    (List.cons_ne_nil _ _) (fun _ _ => rfl)

/-- C2: every record written by `create_input_jsonl` has exactly the wire
shape: top-level `recordId` and `modelInput`, the latter with anthropic
version `bedrock-2023-05-31`, `max_tokens` 1024, the configured system
prompt, and one user message holding a single base64 `image/jpeg` entry. -/
theorem claim2_wire_shape (bi : BatchInference) (keys : List String)
    (fetch : String → Bytes)
    (hlist : bi.s3_client.list_objects bi.bucket_name bi.folder_name = .ok keys)
    (hfetch : ∀ k ∈ keys, bi.s3_client.get_object bi.bucket_name k = .ok (fetch k)) :
    ∃ lines, writtenFile (create_input_jsonl bi).1 = some lines ∧
      ∀ r ∈ lines, wireShape bi.creation_prompt r := by
  refine ⟨keys.map fun k => mkRecord bi.creation_prompt k (fetch k), ?_, ?_⟩
  · rw [create_input_jsonl_ok bi keys fetch hlist hfetch]
    exact writtenFile_trace _ _ _ _ _
  · intro r hr
    rw [List.mem_map] at hr
    obtain ⟨k, _, rfl⟩ := hr
    exact ⟨basename k, String.mk (b64encode (fetch k)), rfl⟩

/-- Witness of C2 at the concrete two-image store. -/
theorem claim2_witness :
    ∃ lines, writtenFile (create_input_jsonl testBI).1 = some lines ∧
      ∀ r ∈ lines, wireShape testBI.creation_prompt r :=
  claim2_wire_shape testBI ["images/a.jpg", "images/b.jpg"] testFetch rfl (fun _ _ => rfl)

/-- C3: base64-decoding the `data` field of each produced record yields
byte-for-byte the bytes fetched from the store for that image. -/
theorem claim3_base64_roundtrip (bi : BatchInference) (keys : List String)
    (fetch : String → Bytes)
    (hlist : bi.s3_client.list_objects bi.bucket_name bi.folder_name = .ok keys)
    (hfetch : ∀ k ∈ keys, bi.s3_client.get_object bi.bucket_name k = .ok (fetch k))
    (hbytes : ∀ k ∈ keys, ∀ x ∈ fetch k, x < 256) :
    ∃ lines, writtenFile (create_input_jsonl bi).1 = some lines ∧
      ∀ i (h : i < keys.length), ∃ r s, lines[i]? = some r ∧
        recordData r = some s ∧ b64decode s.toList = some (fetch keys[i]) := by
  refine ⟨keys.map fun k => mkRecord bi.creation_prompt k (fetch k), ?_, ?_⟩
  · rw [create_input_jsonl_ok bi keys fetch hlist hfetch]
    exact writtenFile_trace _ _ _ _ _
  · intro i h
    refine ⟨mkRecord bi.creation_prompt keys[i] (fetch keys[i]),
            String.mk (b64encode (fetch keys[i])), ?_, rfl, ?_⟩
    · simp [List.getElem?_map, List.getElem?_eq_getElem h]
    · exact b64decode_b64encode _ (hbytes _ (List.getElem_mem h))

/-- Witness of C3 at the concrete two-image store. -/
theorem claim3_witness :
    ∃ lines, writtenFile (create_input_jsonl testBI).1 = some lines ∧
      ∀ i (h : i < (["images/a.jpg", "images/b.jpg"] : List String).length), ∃ r s,
        lines[i]? = some r ∧ recordData r = some s ∧
        b64decode s.toList = some (testFetch (["images/a.jpg", "images/b.jpg"] : List String)[i]) :=
  claim3_base64_roundtrip testBI ["images/a.jpg", "images/b.jpg"] testFetch rfl
    (fun _ _ => rfl) (by decide)

/-- A read failure anywhere in the listed keys aborts the loop of
`create_input_jsonl` with that error. -/
theorem build_records_error (bi : BatchInference) (pre : List String) (k : String)
    (post : List String) (e : String) (fetch : String → Bytes)
    (hpre : ∀ k' ∈ pre, bi.s3_client.get_object bi.bucket_name k' = .ok (fetch k'))
    (hk : bi.s3_client.get_object bi.bucket_name k = .error e) :
    (build_records bi (pre ++ k :: post)).2 = .error e := by
  induction pre with
  | nil => simp [build_records, hk]
  | cons p rest ih =>
      have hp := hpre p (List.mem_cons_self p rest)
      have ih' := ih (fun k' h => hpre k' (List.mem_cons_of_mem _ h))
      simp only [List.cons_append, build_records, hp]
      cases hb : build_records bi (rest ++ k :: post) with
      | mk tr res =>
          rw [hb] at ih'
          simp only at ih'
          subst ih'
          simp [Except.map]

/-- C4: `start_batch_inference_job` invokes `create_input_jsonl` exactly when
the existence check (listing with `input.jsonl` as the filter) comes back
empty; when the request file already exists, the trace is the check followed
directly by the job-creation call, with no listing or reading of the source
folder. -/
theorem claim4_create_iff_absent (bi : BatchInference) (l : List String)
    (hcheck : bi.s3_client.list_objects bi.bucket_name "input.jsonl" = .ok l) :
    (l = [] →
      (start_batch_inference_job bi).1 =
        Call.listObjects bi.bucket_name "input.jsonl" :: (create_input_jsonl bi).1 ++
          (match (create_input_jsonl bi).2 with
           | .ok bi1 => [jobCall bi1]
           | .error _ => [])) ∧
    (l ≠ [] →
      (start_batch_inference_job bi).1 =
        [Call.listObjects bi.bucket_name "input.jsonl", jobCall bi]) := by
  constructor
  · rintro rfl
    cases hcr : create_input_jsonl bi with
    | mk tr res =>
        cases res with
        | error e =>
            simp only [start_batch_inference_job, list_obj_s3, hcheck, List.isEmpty_nil,
              if_true, hcr]
            simp [hcr]
        | ok bi2 =>
            have hb2 : bi2 = bi := create_input_jsonl_self bi bi2 (by rw [hcr])
            have hs := start_batch_after_check bi [] hcheck (fun _ => by rw [hcr, hb2])
            rw [hs]
            simp [hcr, hb2]
  · intro hne
    cases l with
    | nil => exact absurd rfl hne
    | cons x xs =>
        have hs := start_batch_after_check bi (x :: xs) hcheck (fun h => by cases h)
        rw [hs]
        simp

/-- Witness of C4 at the concrete stores, one without and one with the request
file already present. -/
theorem claim4_witness :
    ((start_batch_inference_job testBI).1 =
       Call.listObjects testBI.bucket_name "input.jsonl" :: (create_input_jsonl testBI).1 ++
         (match (create_input_jsonl testBI).2 with
          | .ok bi1 => [jobCall bi1]
          | .error _ => [])) ∧
    (start_batch_inference_job testBIPresent).1 =
      [Call.listObjects testBIPresent.bucket_name "input.jsonl", jobCall testBIPresent] :=
  ⟨(claim4_create_iff_absent testBI [] rfl).1 rfl,
   (claim4_create_iff_absent testBIPresent ["input.jsonl"] rfl).2 (List.cons_ne_nil _ _)⟩

/-- C5: on the success path, `start_batch_inference_job` makes exactly one
job-creation call, whose arguments are the configured job name, model id and
role ARN, the JSONL input reference `s3://{bucket_name}/input.jsonl` and the
output reference `s3://{bucket_name}/{output_folder}`, and it returns the
`jobArn` field of the service response. -/
theorem claim5_job_submission (bi : BatchInference) (l : List String) (response arn : Json)
    (hcheck : bi.s3_client.list_objects bi.bucket_name "input.jsonl" = .ok l)
    (hpre : l = [] → (create_input_jsonl bi).2 = .ok bi)
    (hjob : bi.bedrock_client.create_model_invocation_job bi.job_name bi.model_id
        (inputDataConfig bi.bucket_name) (outputDataConfig bi.bucket_name bi.output_folder)
        bi.role_arn = .ok response)
    (harn : response.lookup "jobArn" = some arn) :
    jobCallCount (start_batch_inference_job bi).1 = 1 ∧
    jobCall bi ∈ (start_batch_inference_job bi).1 ∧
    jobCall bi = Call.createJob bi.job_name bi.model_id
      (Json.obj [("s3InputDataConfig", Json.obj
        [("s3InputFormat", .str "JSONL"),
         ("s3Uri", .str ("s3://" ++ bi.bucket_name ++ "/input.jsonl"))])])
      (Json.obj [("s3OutputDataConfig", Json.obj
        [("s3Uri", .str ("s3://" ++ bi.bucket_name ++ "/" ++ bi.output_folder))])])
      bi.role_arn ∧
    (start_batch_inference_job bi).2 = .ok (bi, arn) := by
  have hs := start_batch_after_check bi l hcheck hpre
  refine ⟨?_, ?_, rfl, ?_⟩
  · rw [hs]
    have h0 := jobCallCount_create_input_jsonl bi
    simp only [jobCallCount] at h0 ⊢
    cases l.isEmpty <;> simp [List.countP_cons, List.countP_append, h0, jobCall]
  · rw [hs]
    simp
  · rw [hs]
    simp [hjob, harn]

/-- Witness of C5 at the concrete store without a request file: the job is
created and its ARN returned. -/
theorem claim5_witness :
    jobCallCount (start_batch_inference_job testBI).1 = 1 ∧
    jobCall testBI ∈ (start_batch_inference_job testBI).1 ∧
    jobCall testBI = Call.createJob testBI.job_name testBI.model_id
      (Json.obj [("s3InputDataConfig", Json.obj
        [("s3InputFormat", .str "JSONL"),
         ("s3Uri", .str ("s3://" ++ testBI.bucket_name ++ "/input.jsonl"))])])
      (Json.obj [("s3OutputDataConfig", Json.obj
        [("s3Uri", .str ("s3://" ++ testBI.bucket_name ++ "/" ++ testBI.output_folder))])])
      testBI.role_arn ∧
    (start_batch_inference_job testBI).2 = .ok (testBI, .str "arn:aws:bedrock:job/test") :=
  claim5_job_submission testBI [] (.obj [("jobArn", .str "arn:aws:bedrock:job/test")])
    (.str "arn:aws:bedrock:job/test") rfl (fun _ => rfl) rfl rfl

/-- C6: an exception raised by the upload is caught inside
`create_input_jsonl`, which returns normally, and a subsequent
`start_batch_inference_job` (the request file still absent) still reaches the
job-creation call. -/
theorem claim6_upload_swallowed (bi : BatchInference) (keys : List String)
    (fetch : String → Bytes) (e : String)
    (hlist : bi.s3_client.list_objects bi.bucket_name bi.folder_name = .ok keys)
    (hfetch : ∀ k ∈ keys, bi.s3_client.get_object bi.bucket_name k = .ok (fetch k))
    (hput : bi.s3_client.put_object bi.bucket_name "input.jsonl"
        (keys.map fun k => mkRecord bi.creation_prompt k (fetch k)) = .error e)
    (hcheck : bi.s3_client.list_objects bi.bucket_name "input.jsonl" = .ok []) :
    (create_input_jsonl bi).2 = .ok bi ∧
    jobCall bi ∈ (start_batch_inference_job bi).1 := by
  have hok := create_input_jsonl_ok bi keys fetch hlist hfetch
  constructor
  · rw [hok]
  · rw [start_batch_after_check bi [] hcheck (fun _ => by rw [hok])]
    simp

/-- Witness of C6 at the concrete store whose uploads raise. -/
theorem claim6_witness :
    (create_input_jsonl testBIPutFail).2 = .ok testBIPutFail ∧
    jobCall testBIPutFail ∈ (start_batch_inference_job testBIPutFail).1 :=
  claim6_upload_swallowed testBIPutFail ["images/a.jpg", "images/b.jpg"] testFetch
    "AccessDenied" rfl (fun _ _ => rfl) rfl rfl

/-- C7: exceptions of the source-folder listing and of an image read propagate
out of `create_input_jsonl` unchanged, and an exception of the job-creation
call propagates out of `start_batch_inference_job` unchanged. -/
theorem claim7_errors_propagate :
    (∀ (bi : BatchInference) (e : String),
        bi.s3_client.list_objects bi.bucket_name bi.folder_name = .error e →
        (create_input_jsonl bi).2 = .error e) ∧
    (∀ (bi : BatchInference) (pre : List String) (k : String) (post : List String)
        (e : String) (fetch : String → Bytes),
        bi.s3_client.list_objects bi.bucket_name bi.folder_name = .ok (pre ++ k :: post) →
        (∀ k' ∈ pre, bi.s3_client.get_object bi.bucket_name k' = .ok (fetch k')) →
        bi.s3_client.get_object bi.bucket_name k = .error e →
        (create_input_jsonl bi).2 = .error e) ∧
    (∀ (bi : BatchInference) (l : List String) (e : String),
        bi.s3_client.list_objects bi.bucket_name "input.jsonl" = .ok l →
        (l = [] → (create_input_jsonl bi).2 = .ok bi) →
        bi.bedrock_client.create_model_invocation_job bi.job_name bi.model_id
          (inputDataConfig bi.bucket_name) (outputDataConfig bi.bucket_name bi.output_folder)
          bi.role_arn = .error e →
        (start_batch_inference_job bi).2 = .error e) := by
  refine ⟨?_, ?_, ?_⟩
  · intro bi e hl
    simp [create_input_jsonl, list_obj_s3, hl]
  · intro bi pre k post e fetch hl hpre hk
    have hb := build_records_error bi pre k post e fetch hpre hk
    cases hbr : build_records bi (pre ++ k :: post) with
    | mk tr res =>
        rw [hbr] at hb
        simp only at hb
        subst hb
        simp [create_input_jsonl, list_obj_s3, hl, hbr]
  · intro bi l e hcheck hpre hjob
    rw [start_batch_after_check bi l hcheck hpre]
    simp [hjob]

/-- Witness of C7 for the three error kinds, at three concrete failing
clients. -/
theorem claim7_witness :
    (create_input_jsonl testBIListFail).2 = .error "NoSuchBucket" ∧
    (create_input_jsonl testBIGetFail).2 = .error "NoSuchKey" ∧
    (start_batch_inference_job testBIJobFail).2 = .error "ValidationException" :=
  ⟨claim7_errors_propagate.1 testBIListFail "NoSuchBucket" rfl,
   claim7_errors_propagate.2.1 testBIGetFail [] "images/a.jpg" [] "NoSuchKey" testFetch rfl
     (fun _ h => absurd h (List.not_mem_nil _)) rfl,
   claim7_errors_propagate.2.2 testBIJobFail ["input.jsonl"] "ValidationException" rfl
     (fun h => by cases h) rfl⟩

/-- C8: the record identifiers are, in listing order, exactly the base
filenames of the listed keys: they are pairwise distinct whenever those base
filenames are pairwise distinct, and keys sharing a base filename still
produce one record each (no deduplication), necessarily with the same
`recordId`. -/
theorem claim8_record_ids (bi : BatchInference) (keys : List String)
    (fetch : String → Bytes)
    (hlist : bi.s3_client.list_objects bi.bucket_name bi.folder_name = .ok keys)
    (hfetch : ∀ k ∈ keys, bi.s3_client.get_object bi.bucket_name k = .ok (fetch k)) :
    ∃ lines, writtenFile (create_input_jsonl bi).1 = some lines ∧
      lines.length = keys.length ∧
      lines.map recordId = keys.map (fun k => some (basename k)) ∧
      ((keys.map basename).Nodup → (lines.map recordId).Nodup) := by
  refine ⟨keys.map fun k => mkRecord bi.creation_prompt k (fetch k), ?_, by simp, ?_, ?_⟩
  · rw [create_input_jsonl_ok bi keys fetch hlist hfetch]
    exact writtenFile_trace _ _ _ _ _
  · rw [List.map_map]
    rfl
  · intro hnd
    have hmap : ((keys.map fun k => mkRecord bi.creation_prompt k (fetch k)).map recordId)
        = (keys.map basename).map some := by
      rw [List.map_map, List.map_map]
      rfl
    rw [hmap]
    exact List.Nodup.map (Option.some_injective _) hnd

/-- Witness of C8 at the concrete two-image store, whose base filenames are
distinct. -/
theorem claim8_witness :
    ∃ lines, writtenFile (create_input_jsonl testBI).1 = some lines ∧
      lines.length = (["images/a.jpg", "images/b.jpg"] : List String).length ∧
      lines.map recordId =
        (["images/a.jpg", "images/b.jpg"] : List String).map (fun k => some (basename k)) ∧
      (((["images/a.jpg", "images/b.jpg"] : List String).map basename).Nodup →
        (lines.map recordId).Nodup) :=
  claim8_record_ids testBI ["images/a.jpg", "images/b.jpg"] testFetch rfl (fun _ _ => rfl)

/-- C9: neither operation modifies the configuration set by the constructor:
whenever an operation returns successfully, the `self` it hands back is
exactly the `self` it was given, every field included. -/
theorem claim9_config_unchanged (bi bi1 : BatchInference) :
    ((create_input_jsonl bi).2 = .ok bi1 → bi1 = bi) ∧
    (∀ v, (start_batch_inference_job bi).2 = .ok (bi1, v) → bi1 = bi) := by
  constructor
  · exact create_input_jsonl_self bi bi1
  · intro v h
    cases hl : bi.s3_client.list_objects bi.bucket_name "input.jsonl" with
    | error e => simp [start_batch_inference_job, list_obj_s3, hl] at h
    | ok l =>
        cases hcr : create_input_jsonl bi with
        | mk tr res =>
            cases res with
            | error e =>
                cases hemp : l.isEmpty with
                | true =>
                    simp [start_batch_inference_job, list_obj_s3, hl, hemp, hcr] at h
                | false =>
                    simp only [start_batch_inference_job, list_obj_s3, hl, hemp,
                      Bool.false_eq_true, if_false] at h
                    cases hjob : bi.bedrock_client.create_model_invocation_job bi.job_name
                        bi.model_id (inputDataConfig bi.bucket_name)
                        (outputDataConfig bi.bucket_name bi.output_folder) bi.role_arn with
                    | error e2 => simp [hjob] at h
                    | ok response =>
                        cases hlook : response.lookup "jobArn" with
                        | none => simp [hjob, hlook] at h
                        | some arn =>
                            simp [hjob, hlook] at h
                            exact h.1.symm
            | ok bi2 =>
                have hb2 : bi2 = bi := create_input_jsonl_self bi bi2 (by rw [hcr])
                subst hb2
                cases hemp : l.isEmpty with
                | true =>
                    simp only [start_batch_inference_job, list_obj_s3, hl, hemp, if_true,
                      hcr] at h
                    cases hjob : bi2.bedrock_client.create_model_invocation_job bi2.job_name
                        bi2.model_id (inputDataConfig bi2.bucket_name)
                        (outputDataConfig bi2.bucket_name bi2.output_folder) bi2.role_arn with
                    | error e2 => simp [hjob] at h
                    | ok response =>
                        cases hlook : response.lookup "jobArn" with
                        | none => simp [hjob, hlook] at h
                        | some arn =>
                            simp [hjob, hlook] at h
                            exact h.1.symm
                | false =>
                    simp only [start_batch_inference_job, list_obj_s3, hl, hemp,
                      Bool.false_eq_true, if_false] at h
                    cases hjob : bi2.bedrock_client.create_model_invocation_job bi2.job_name
                        bi2.model_id (inputDataConfig bi2.bucket_name)
                        (outputDataConfig bi2.bucket_name bi2.output_folder) bi2.role_arn with
                    | error e2 => simp [hjob] at h
                    | ok response =>
                        cases hlook : response.lookup "jobArn" with
                        | none => simp [hjob, hlook] at h
                        | some arn =>
                            simp [hjob, hlook] at h
                            exact h.1.symm

/-- Witness of C9: both operations run at a concrete configuration and hand
back exactly that configuration. -/
theorem claim9_witness :
    ((create_input_jsonl testBI).2 = .ok testBI ∧ testBI = testBI) ∧
    ((start_batch_inference_job testBIPresent).2 =
        .ok (testBIPresent, .str "arn:aws:bedrock:job/test") ∧
      testBIPresent = testBIPresent) :=
  ⟨⟨rfl, (claim9_config_unchanged testBI testBI).1 rfl⟩,
   ⟨rfl, (claim9_config_unchanged testBIPresent testBIPresent).2
      (.str "arn:aws:bedrock:job/test") rfl⟩⟩

/-- C10: an empty source listing still completes without error:
`create_input_jsonl` writes a local request file with zero lines, still
attempts the upload of that empty file, and `start_batch_inference_job` still
reaches the job-creation call. -/
theorem claim10_empty_listing (bi : BatchInference)
    (hlist : bi.s3_client.list_objects bi.bucket_name bi.folder_name = .ok [])
    (hcheck : bi.s3_client.list_objects bi.bucket_name "input.jsonl" = .ok []) :
    create_input_jsonl bi =
      ([Call.listObjects bi.bucket_name bi.folder_name,
        Call.writeLocalFile "input.jsonl" [],
        Call.putObject bi.bucket_name "input.jsonl" []], .ok bi) ∧
    jobCall bi ∈ (start_batch_inference_job bi).1 := by
  have hok := create_input_jsonl_ok bi [] (fun _ => []) hlist (by simp)
  constructor
  · simpa using hok
  · rw [start_batch_after_check bi [] hcheck (fun _ => by rw [hok])]
    simp

/-- Witness of C10 at the concrete store whose listings are all empty. -/
theorem claim10_witness :
    create_input_jsonl testBIEmpty =
      ([Call.listObjects testBIEmpty.bucket_name testBIEmpty.folder_name,
        Call.writeLocalFile "input.jsonl" [],
        Call.putObject testBIEmpty.bucket_name "input.jsonl" []], .ok testBIEmpty) ∧
    jobCall testBIEmpty ∈ (start_batch_inference_job testBIEmpty).1 :=
  claim10_empty_listing testBIEmpty rfl rfl

end AwsHelpers
